import Mathlib

/-!
# Interprocedural fixpoint adapter — shallow embedding

A shallow embedding of `src/cwe_checker_rs/src/analysis/interprocedural_fixpoint.rs`:
the node-value model (`NodeValue`), the interprocedural context contract (`Context`),
the generalizing adapter (`GeneralizedContext` with its `merge` and `update_edge`),
the `merge_option` helper and the `Computation` facade constructor.

Rust panics are modelled as `Except.error`, the `Option`-style "no value" result as
`Option.none`.  The intermediate-representation payload types (`Def`, `Jmp`, `Blk`,
`Sub`, `Expression`) and the graph types (`Node`, `Edge`, `Graph`) come from modules
outside the analysed file and are modelled minimally from their use sites and the
specification; their payloads are opaque to the adapter, which only passes them on.
-/

namespace InterproceduralFixpoint

/-- Opaque payload of a `Def` term of the intermediate representation. -/
structure Def where
  id : Nat
deriving DecidableEq

/-- Opaque payload of a `Jmp` term of the intermediate representation. -/
structure Jmp where
  id : Nat
deriving DecidableEq

/-- Opaque payload of a `Sub` (subroutine) term of the intermediate representation. -/
structure Sub where
  id : Nat
deriving DecidableEq

/-- Opaque expression of the intermediate representation
(only handed to `specialize_conditional`). -/
structure Expression where
  id : Nat
deriving DecidableEq

/-- A term wrapping an intermediate-representation object. -/
structure Term (α : Type) where
  term : α
deriving DecidableEq

/-- A basic block: a list of `Def` terms followed by a list of `Jmp` terms. -/
structure Blk where
  defs : List (Term Def)
  jmps : List (Term Jmp)
deriving DecidableEq

/-- Modelled from the spec: a graph node is either the start or the end of a basic
block, or a synthetic call/return combination point recording the associated
call block and return block (the graph module is outside the analysed file;
the `CallReturn` shape follows its use in `update_edge`). -/
inductive Node where
  | BlkStart : Term Blk → Term Sub → Node
  | BlkEnd : Term Blk → Term Sub → Node
  | CallReturn : Term Blk × Term Sub → Term Blk × Term Sub → Node
deriving DecidableEq

/-- Modelled from the spec: accessor returning the basic block of a block node;
fatal (a panic in the original) on a call/return combinator node. -/
def Node.get_block : Node → Except String (Term Blk)
  | .BlkStart blk _ => .ok blk
  | .BlkEnd blk _ => .ok blk
  | .CallReturn _ _ => .error "get_block called on a CallReturn node"

/-- The edge kinds of the interprocedural control flow graph, with the payloads
used by `update_edge`.  `ExtCallStub` models the external-call-stub edge kind
(spelled with the full word for "external" in the source). -/
inductive Edge where
  | Block : Edge
  | Call : Term Jmp → Edge
  | CRCallStub : Edge
  | CRReturnStub : Edge
  | CRCombine : Term Jmp → Edge
  | ExtCallStub : Term Jmp → Edge
  | Jump : Term Jmp → Option (Term Jmp) → Edge
deriving DecidableEq

/-- Modelled from the spec: an immutable directed graph with node weights and
edge weights, queryable by index.  An edge is stored as
(start node index, end node index, edge weight). -/
structure Graph where
  nodes : List Node
  edges : List (Nat × Nat × Edge)
deriving DecidableEq

/-- The value at a node of the interprocedural fixpoint computation:
either a plain value or a call/return combinator holding two optional parts. -/
inductive NodeValue (T : Type) where
  | Value : T → NodeValue T
  | CallReturnCombinator : Option T → Option T → NodeValue T
deriving DecidableEq

/-- `NodeValue::unwrap_value`: returns the held value of a `Value`,
panics (modelled as `Except.error`) on a `CallReturnCombinator`. -/
def NodeValue.unwrap_value : NodeValue T → Except String T
  | .Value value => .ok value
  | _ => .error "Unexpected node value type"

/-- The interprocedural fixpoint context contract: the graph, the merge operator
and the edge-kind-specific transition functions supplied by an analysis. -/
structure Context (V : Type) where
  graph : Graph
  merge : V → V → V
  update_def : V → Term Def → Option V
  update_jump : V → Term Jmp → Option (Term Jmp) → Term Blk → Option V
  update_call : V → Term Jmp → Node → Option V
  update_return : Option V → Option V → Term Jmp → Term Jmp → Option V
  update_call_stub : V → Term Jmp → Option V
  specialize_conditional : V → Expression → Bool → Option V

/-- The wrapper turning an interprocedural context into a context for the
generic fixpoint solver. -/
structure GeneralizedContext (V : Type) where
  context : Context V

/-- `GeneralizedContext::new`. -/
def GeneralizedContext.new (context : Context V) : GeneralizedContext V :=
  ⟨context⟩

/-- Helper function merging two values wrapped in `Option`:
merges `(some x, none)` to `some x`. -/
def merge_option (opt1 opt2 : Option T) (merge : T → T → T) : Option T :=
  match opt1, opt2 with
  | some value1, some value2 => some (merge value1 value2)
  | some value, none => some value
  | none, some value => some value
  | none, none => none

/-- `GeneralizedContext::merge`: merge two node values; plain values via the
context's merge, combinator values slot-wise via `merge_option`; a mixed
pairing is a panic (modelled as `Except.error`). -/
def GeneralizedContext.merge (gc : GeneralizedContext V) :
    NodeValue V → NodeValue V → Except String (NodeValue V)
  | .Value value1, .Value value2 => .ok (.Value (gc.context.merge value1 value2))
  | .CallReturnCombinator call1 return1, .CallReturnCombinator call2 return2 =>
      .ok (.CallReturnCombinator
        (merge_option call1 call2 fun v1 v2 => gc.context.merge v1 v2)
        (merge_option return1 return2 fun v1 v2 => gc.context.merge v1 v2))
  | _, _ => .error "Malformed CFG in fixpoint computation"

/-- Option unwrap with a panic message (a `.unwrap()` in the original). -/
def exceptOfOption (msg : String) : Option α → Except String α
  | some a => .ok a
  | none => .error msg

/-- `GeneralizedContext::update_edge`: the edge transition function, dispatching
on the edge kind and delegating to the context's transition functions.
Lookups that `.unwrap()` in the original, the indexing `jmps[0]`, and the
shape mismatches become `Except.error`. -/
def GeneralizedContext.update_edge (gc : GeneralizedContext V)
    (node_value : NodeValue V) (edge : Nat) :
    Except String (Option (NodeValue V)) :=
  let graph := gc.context.graph
  match graph.edges[edge]? with
  | none => .error "edge_endpoints: no edge at the given index"
  | some (start_node, end_node, w) =>
    match w with
    | Edge.Block =>
      match exceptOfOption "node_weight: no node at the given index"
          graph.nodes[start_node]? with
      | .error msg => .error msg
      | .ok nw =>
        match nw.get_block with
        | .error msg => .error msg
        | .ok block_term =>
          match node_value.unwrap_value with
          | .error msg => .error msg
          | .ok value =>
            let defs := block_term.term.defs
            let end_val :=
              defs.foldlM (fun accum d => gc.context.update_def accum d) value
            .ok (end_val.map NodeValue.Value)
    | Edge.Call call =>
      match node_value.unwrap_value with
      | .error msg => .error msg
      | .ok v =>
        match exceptOfOption "node_weight: no node at the given index"
            graph.nodes[end_node]? with
        | .error msg => .error msg
        | .ok n => .ok ((gc.context.update_call v call n).map NodeValue.Value)
    | Edge.CRCallStub =>
      match node_value.unwrap_value with
      | .error msg => .error msg
      | .ok v => .ok (some (NodeValue.CallReturnCombinator (some v) none))
    | Edge.CRReturnStub =>
      match node_value.unwrap_value with
      | .error msg => .error msg
      | .ok v => .ok (some (NodeValue.CallReturnCombinator none (some v)))
    | Edge.CRCombine call_term =>
      match node_value with
      | NodeValue.Value _ => .error "Unexpected interprocedural fixpoint graph state"
      | NodeValue.CallReturnCombinator call return_ =>
        match graph.nodes[start_node]? with
        | some (Node.CallReturn _ (return_from_block, _)) =>
          match return_from_block.term.jmps[0]? with
          | none => .error "index out of bounds"
          | some return_from_jmp =>
            match gc.context.update_return return_ call call_term return_from_jmp with
            | some val => .ok (some (NodeValue.Value val))
            | none => .ok none
        | _ => .error "Malformed Control flow graph"
    | Edge.ExtCallStub call =>
      match node_value.unwrap_value with
      | .error msg => .error msg
      | .ok v => .ok ((gc.context.update_call_stub v call).map NodeValue.Value)
    | Edge.Jump jump untaken_conditional =>
      match node_value.unwrap_value with
      | .error msg => .error msg
      | .ok v =>
        match exceptOfOption "node_weight: no node at the given index"
            graph.nodes[end_node]? with
        | .error msg => .error msg
        | .ok n =>
          match n.get_block with
          | .error msg => .error msg
          | .ok blk =>
            .ok ((gc.context.update_jump v jump untaken_conditional blk).map
              NodeValue.Value)

/-- Modelled from the spec: the generic fixpoint solver (a module outside the
analysed file) is constructed from a context and an optional default node
value, both of which it stores; the default seeds unvisited nodes. -/
structure FPComputation (C : Type) (NV : Type) where
  fp_context : C
  default_value : Option NV

/-- Modelled from the spec: the generic solver's constructor. -/
def FPComputation.new (context : C) (default_value : Option NV) :
    FPComputation C NV :=
  ⟨context, default_value⟩

/-- The interprocedural `Computation` facade: owns the generalized solver. -/
structure Computation (V : Type) where
  generalized_computation : FPComputation (GeneralizedContext V) (NodeValue V)

/-- `Computation::new`: wrap the context and pass the optional default value
to the generic solver as a plain node value. -/
def Computation.new (problem : Context V) (default_value : Option V) :
    Computation V :=
  { generalized_computation :=
      FPComputation.new (GeneralizedContext.new problem)
        (default_value.map NodeValue.Value) }

/-! ## A concrete instantiation used as evaluation witness -/

/-- Concrete `Def` term. -/
def dA : Term Def := ⟨⟨1⟩⟩

/-- Concrete `Def` term on which the test context's `update_def` declines. -/
def dB : Term Def := ⟨⟨2⟩⟩

/-- Concrete `Def` term. -/
def dC : Term Def := ⟨⟨3⟩⟩

/-- Concrete call jump term. -/
def jCall : Term Jmp := ⟨⟨10⟩⟩

/-- Concrete return jump term. -/
def jRet : Term Jmp := ⟨⟨11⟩⟩

/-- Concrete subroutine term. -/
def subA : Term Sub := ⟨⟨0⟩⟩

/-- Concrete block with three defs. -/
def blkA : Term Blk := ⟨⟨[dA, dB, dC], []⟩⟩

/-- Concrete call-site block. -/
def blkC : Term Blk := ⟨⟨[], [jCall]⟩⟩

/-- Concrete return-site block. -/
def blkR : Term Blk := ⟨⟨[], [jRet]⟩⟩

/-- Concrete test graph with a block edge, the two stub edges and a combine
edge out of a call/return combinator node. -/
def testGraph : Graph :=
  { nodes := [Node.BlkStart blkA subA, Node.BlkEnd blkA subA,
              Node.BlkStart blkC subA, Node.BlkEnd blkC subA,
              Node.CallReturn (blkC, subA) (blkR, subA), Node.BlkStart blkR subA],
    edges := [(0, 1, Edge.Block), (2, 4, Edge.CRCallStub), (3, 4, Edge.CRReturnStub),
              (4, 5, Edge.CRCombine jCall)] }

/-- Concrete test context over the value domain `Nat`. -/
def testCtx : Context Nat :=
  { graph := testGraph,
    merge := Nat.max,
    update_def := fun v d => if d.term.id = 2 then none else some (v + d.term.id),
    update_jump := fun v _ _ _ => some v,
    update_call := fun v _ _ => some v,
    update_return := fun r c _ _ => some (r.getD 0 + c.getD 0),
    update_call_stub := fun v _ => some v,
    specialize_conditional := fun v _ _ => some v }

/-! ## Theorems -/

/-- C2: for every pair of Split node values the adapter's merge is component-wise
over the call and return slots: both present gives the context's merge, one
present gives that value, neither gives an absent slot; in particular
`Split(some a, none)` merged with `Split(none, some b)` gives
`Split(some a, some b)`, and `Split(some a, none)` merged with
`Split(some c, none)` gives `Split(some (merge a c), none)`. -/
theorem c2_split_merge_componentwise {V : Type} (ctx : Context V) (a b c : V)
    (c1 r1 c2 r2 : Option V) :
    GeneralizedContext.merge ⟨ctx⟩ (NodeValue.CallReturnCombinator c1 r1)
        (NodeValue.CallReturnCombinator c2 r2) =
      Except.ok (NodeValue.CallReturnCombinator
        (merge_option c1 c2 fun v1 v2 => ctx.merge v1 v2)
        (merge_option r1 r2 fun v1 v2 => ctx.merge v1 v2))
    ∧ merge_option (some a) (some b) ctx.merge = some (ctx.merge a b)
    ∧ merge_option (some a) none ctx.merge = some a
    ∧ merge_option none (some b) ctx.merge = some b
    ∧ merge_option (none : Option V) none ctx.merge = none
    ∧ GeneralizedContext.merge ⟨ctx⟩
        (NodeValue.CallReturnCombinator (some a) none)
        (NodeValue.CallReturnCombinator none (some b)) =
      Except.ok (NodeValue.CallReturnCombinator (some a) (some b))
    ∧ GeneralizedContext.merge ⟨ctx⟩
        (NodeValue.CallReturnCombinator (some a) none)
        (NodeValue.CallReturnCombinator (some c) none) =
      Except.ok (NodeValue.CallReturnCombinator (some (ctx.merge a c)) none) :=
  ⟨rfl, rfl, rfl, rfl, rfl, rfl, rfl⟩

/-- C5: merging node values of differing variants (one Plain, one Split), in
either argument order, is a fatal internal error (a panic, modelled as
`Except.error`). -/
theorem c5_mixed_merge_is_fatal {V : Type} (ctx : Context V) (v : V)
    (c r : Option V) :
    GeneralizedContext.merge ⟨ctx⟩ (NodeValue.Value v)
        (NodeValue.CallReturnCombinator c r) =
      Except.error "Malformed CFG in fixpoint computation"
    ∧ GeneralizedContext.merge ⟨ctx⟩ (NodeValue.CallReturnCombinator c r)
        (NodeValue.Value v) =
      Except.error "Malformed CFG in fixpoint computation" :=
  ⟨rfl, rfl⟩

/-- C6: `unwrap_value` returns the held value on a Plain node value and fails
fatally (a panic, modelled as `Except.error`, never a returned value) on a
Split node value, for every value type. -/
theorem c6_unwrap_value {V : Type} (v : V) (c r : Option V) :
    (NodeValue.Value v).unwrap_value = Except.ok v
    ∧ (NodeValue.CallReturnCombinator c r).unwrap_value =
        Except.error "Unexpected node value type" :=
  ⟨rfl, rfl⟩

/-- C7: if the context's merge is idempotent then the adapter's merge of a
Plain value with itself returns that same Plain value: the engine preserves
idempotence of the underlying merge on Plain values. -/
theorem c7_merge_idempotent_lift {V : Type} (ctx : Context V)
    (hidem : ∀ v : V, ctx.merge v v = v) (v : V) :
    GeneralizedContext.merge ⟨ctx⟩ (NodeValue.Value v) (NodeValue.Value v) =
      Except.ok (NodeValue.Value v) := by
  simp [GeneralizedContext.merge, hidem]

/-- Witness for C7 at the concrete test context (whose merge is `Nat.max`)
and the value 4. -/
theorem c7_merge_idempotent_lift_witness :
    GeneralizedContext.merge ⟨testCtx⟩ (NodeValue.Value 4) (NodeValue.Value 4) =
      Except.ok (NodeValue.Value 4) :=
  c7_merge_idempotent_lift testCtx (fun v => Nat.max_self v) 4

/-- C9: `Computation.new` seeds the underlying solver with the optional default
value wrapped as a Plain node value: `some v` becomes `some (Value v)` and
`none` stays `none`. -/
theorem c9_new_propagates_default {V : Type} (ctx : Context V) (v : V) :
    (Computation.new ctx (some v)).generalized_computation.default_value =
      some (NodeValue.Value v)
    ∧ (Computation.new ctx none).generalized_computation.default_value =
      (none : Option (NodeValue V))
    ∧ ∀ d : Option V,
        (Computation.new ctx d).generalized_computation.fp_context =
          GeneralizedContext.new ctx :=
  ⟨rfl, rfl, fun _ => rfl⟩

/-- C1: on a combine edge, a Plain source value aborts with a fatal error; a
Split source value makes `update_edge` invoke the context's `update_return`
with exactly the Split's two optional parts (return part first, call part
second), the edge's call statement and the return statement recorded at the
combinator node (the first jump of its return block), wrapping a present
result as a Plain value and otherwise yielding no value. -/
theorem c1_combine_edge_update {V : Type} (ctx : Context V) (e s t : Nat)
    (call_term : Term Jmp)
    (he : ctx.graph.edges[e]? = some (s, t, Edge.CRCombine call_term)) :
    (∀ v : V, GeneralizedContext.update_edge ⟨ctx⟩ (NodeValue.Value v) e =
        Except.error "Unexpected interprocedural fixpoint graph state")
    ∧ ∀ (call return_ : Option V) (cb : Term Blk × Term Sub)
        (rb : Term Blk) (sb : Term Sub) (rj : Term Jmp),
        ctx.graph.nodes[s]? = some (Node.CallReturn cb (rb, sb)) →
        rb.term.jmps[0]? = some rj →
        GeneralizedContext.update_edge ⟨ctx⟩
            (NodeValue.CallReturnCombinator call return_) e =
          Except.ok ((ctx.update_return return_ call call_term rj).map
            NodeValue.Value) := by
  constructor
  · intro v
    simp [GeneralizedContext.update_edge, he]
  · intro call return_ cb rb sb rj hn hj
    simp only [GeneralizedContext.update_edge, he, hn, hj]
    cases ctx.update_return return_ call call_term rj <;> rfl

/-- Witness for C1 at the concrete test graph: the combine edge 3 starts at the
combinator node 4, whose return block's first jump is `jRet`; the test
context's `update_return` adds the two parts, giving 3 + 5 = 8. -/
theorem c1_combine_edge_update_witness :
    GeneralizedContext.update_edge ⟨testCtx⟩
        (NodeValue.CallReturnCombinator (some 5) (some 3)) 3 =
      Except.ok (some (NodeValue.Value 8)) := by
  have h := (c1_combine_edge_update testCtx 3 4 5 jCall rfl).2
    (some 5) (some 3) (blkC, subA) blkR subA jRet rfl rfl
  exact h.trans rfl

/-- C4: a call-stub edge always produces (never declines) a Split value whose
call part is the source's unwrapped Plain value and whose return part is
absent; a return-stub edge symmetrically produces a Split with only the
return part set. -/
theorem c4_stub_edges {V : Type} (ctx : Context V) (e1 e2 s1 t1 s2 t2 : Nat)
    (h1 : ctx.graph.edges[e1]? = some (s1, t1, Edge.CRCallStub))
    (h2 : ctx.graph.edges[e2]? = some (s2, t2, Edge.CRReturnStub)) :
    ∀ v : V,
      GeneralizedContext.update_edge ⟨ctx⟩ (NodeValue.Value v) e1 =
        Except.ok (some (NodeValue.CallReturnCombinator (some v) none))
      ∧ GeneralizedContext.update_edge ⟨ctx⟩ (NodeValue.Value v) e2 =
        Except.ok (some (NodeValue.CallReturnCombinator none (some v))) := by
  intro v
  constructor
  · simp [GeneralizedContext.update_edge, h1, NodeValue.unwrap_value]
  · simp [GeneralizedContext.update_edge, h2, NodeValue.unwrap_value]

/-- Witness for C4 at the concrete test graph: edge 1 is the call stub and
edge 2 is the return stub into the combinator node. -/
theorem c4_stub_edges_witness :
    GeneralizedContext.update_edge ⟨testCtx⟩ (NodeValue.Value 7) 1 =
      Except.ok (some (NodeValue.CallReturnCombinator (some 7) none))
    ∧ GeneralizedContext.update_edge ⟨testCtx⟩ (NodeValue.Value 7) 2 =
      Except.ok (some (NodeValue.CallReturnCombinator none (some 7))) :=
  c4_stub_edges testCtx 1 2 2 4 3 4 rfl rfl 7

/-- C8: the engine never invokes the context's `specialize_conditional`:
replacing that function by any other leaves both `update_edge` (on every
edge and node value) and the adapter's `merge` unchanged. -/
theorem c8_specialize_conditional_unused {V : Type} (ctx : Context V)
    (f : V → Expression → Bool → Option V) (nv nv1 nv2 : NodeValue V)
    (e : Nat) :
    GeneralizedContext.update_edge ⟨{ ctx with specialize_conditional := f }⟩
        nv e =
      GeneralizedContext.update_edge ⟨ctx⟩ nv e
    ∧ GeneralizedContext.merge ⟨{ ctx with specialize_conditional := f }⟩
        nv1 nv2 =
      GeneralizedContext.merge ⟨ctx⟩ nv1 nv2 := by
  cases ctx
  exact ⟨rfl, rfl⟩

/-- Folding a fallible step over an appended list splits into the fold over the
first part followed, when it succeeds, by the fold over the second part. -/
theorem foldlM_option_append {α β : Type} (f : β → α → Option β)
    (l1 l2 : List α) (b : β) :
    (l1 ++ l2).foldlM f b = (l1.foldlM f b).bind fun w => l2.foldlM f w := by
  induction l1 generalizing b with
  | nil => simp
  | cons a l ih =>
    cases h : f b a with
    | none => simp [List.foldlM_cons, h]
    | some w => simp [List.foldlM_cons, h, ih]

/-- C3: on an ordinary block edge with a Plain source value, `update_edge`
folds the context's `update_def` over the block's statements in order,
wrapping the final value as Plain; if `update_def` declines at some
statement the overall result is "no value", and the statements after it
never influence the fold (the fold over the prefix up to the declining
statement followed by any tail is already "no value"). -/
theorem c3_block_edge_fold {V : Type} (ctx : Context V) (e s t : Nat)
    (n : Node) (blk : Term Blk) (v : V)
    (he : ctx.graph.edges[e]? = some (s, t, Edge.Block))
    (hn : ctx.graph.nodes[s]? = some n)
    (hb : n.get_block = Except.ok blk) :
    GeneralizedContext.update_edge ⟨ctx⟩ (NodeValue.Value v) e =
      Except.ok ((blk.term.defs.foldlM (fun accum d => ctx.update_def accum d)
        v).map NodeValue.Value)
    ∧ ∀ (l1 : List (Term Def)) (d : Term Def) (l2 : List (Term Def)) (w : V),
        blk.term.defs = l1 ++ d :: l2 →
        l1.foldlM (fun accum dd => ctx.update_def accum dd) v = some w →
        ctx.update_def w d = none →
        GeneralizedContext.update_edge ⟨ctx⟩ (NodeValue.Value v) e =
          Except.ok none
        ∧ ∀ l2' : List (Term Def),
            (l1 ++ d :: l2').foldlM (fun accum dd => ctx.update_def accum dd)
              v = none := by
  have ha : GeneralizedContext.update_edge ⟨ctx⟩ (NodeValue.Value v) e =
      Except.ok ((blk.term.defs.foldlM (fun accum d => ctx.update_def accum d)
        v).map NodeValue.Value) := by
    simp [GeneralizedContext.update_edge, he, hn, hb, exceptOfOption,
      NodeValue.unwrap_value]
  refine ⟨ha, ?_⟩
  intro l1 d l2 w hdefs hfold hnone
  have hall : ∀ l2' : List (Term Def),
      (l1 ++ d :: l2').foldlM (fun accum dd => ctx.update_def accum dd) v =
        none := by
    intro l2'
    rw [foldlM_option_append, hfold]
    simp [List.foldlM_cons, hnone]
  refine ⟨?_, hall⟩
  rw [ha, hdefs, hall l2]
  rfl

/-- Witness for C3 at the concrete test graph: on the block edge 0 the test
context maps 10 to 11 on the first statement, declines on the second, so
the edge yields no value. -/
theorem c3_block_edge_fold_witness :
    GeneralizedContext.update_edge ⟨testCtx⟩ (NodeValue.Value 10) 0 =
      Except.ok none := by
  have h := (c3_block_edge_fold testCtx 0 0 1 (Node.BlkStart blkA subA) blkA 10
    rfl rfl rfl).2 [dA] dB [dC] 11 rfl rfl rfl
  exact h.1

/-- C10: whenever `update_edge` produces a value, that value is a Split
(call/return combinator) exactly when the traversed edge is a call-stub or
return-stub edge; on block, call, combine, external-call-stub and jump
edges the produced value is always Plain. -/
theorem c10_update_edge_shape {V : Type} (ctx : Context V) (nv : NodeValue V)
    (e : Nat) (out : NodeValue V)
    (h : GeneralizedContext.update_edge ⟨ctx⟩ nv e = Except.ok (some out)) :
    ∃ s t w, ctx.graph.edges[e]? = some (s, t, w) ∧
      ((∃ c r, out = NodeValue.CallReturnCombinator c r) ↔
        (w = Edge.CRCallStub ∨ w = Edge.CRReturnStub)) := by
  cases he : ctx.graph.edges[e]? with
  | none => simp [GeneralizedContext.update_edge, he] at h
  | some trip =>
    obtain ⟨s, t, w⟩ := trip
    refine ⟨s, t, w, rfl, ?_⟩
    cases w with
    | Block =>
      simp only [GeneralizedContext.update_edge, he] at h
      split at h
      · exact Except.noConfusion h
      · split at h
        · exact Except.noConfusion h
        · split at h
          · exact Except.noConfusion h
          · rw [Except.ok.injEq, Option.map_eq_some'] at h
            obtain ⟨x, -, hx⟩ := h
            subst hx
            simp
    | Call call =>
      simp only [GeneralizedContext.update_edge, he] at h
      split at h
      · exact Except.noConfusion h
      · split at h
        · exact Except.noConfusion h
        · rw [Except.ok.injEq, Option.map_eq_some'] at h
          obtain ⟨x, -, hx⟩ := h
          subst hx
          simp
    | CRCallStub =>
      simp only [GeneralizedContext.update_edge, he] at h
      split at h
      · exact Except.noConfusion h
      · rw [Except.ok.injEq, Option.some.injEq] at h
        subst h
        simp
    | CRReturnStub =>
      simp only [GeneralizedContext.update_edge, he] at h
      split at h
      · exact Except.noConfusion h
      · rw [Except.ok.injEq, Option.some.injEq] at h
        subst h
        simp
    | CRCombine call_term =>
      simp only [GeneralizedContext.update_edge, he] at h
      split at h
      · exact Except.noConfusion h
      · split at h
        · split at h
          · exact Except.noConfusion h
          · split at h
            · rw [Except.ok.injEq, Option.some.injEq] at h
              subst h
              simp
            · rw [Except.ok.injEq] at h
              exact Option.noConfusion h
        · exact Except.noConfusion h
    | ExtCallStub call =>
      simp only [GeneralizedContext.update_edge, he] at h
      split at h
      · exact Except.noConfusion h
      · rw [Except.ok.injEq, Option.map_eq_some'] at h
        obtain ⟨x, -, hx⟩ := h
        subst hx
        simp
    | Jump jump untaken =>
      simp only [GeneralizedContext.update_edge, he] at h
      split at h
      · exact Except.noConfusion h
      · split at h
        · exact Except.noConfusion h
        · split at h
          · exact Except.noConfusion h
          · rw [Except.ok.injEq, Option.map_eq_some'] at h
            obtain ⟨x, -, hx⟩ := h
            subst hx
            simp

/-- Witness for C10 at the concrete test graph: the call-stub edge 1 produces
the Split value with only the call part set. -/
theorem c10_update_edge_shape_witness :
    ∃ s t w, testCtx.graph.edges[(1 : Nat)]? = some (s, t, w) ∧
      ((∃ c r, NodeValue.CallReturnCombinator (some (7 : Nat)) none =
          NodeValue.CallReturnCombinator c r) ↔
        (w = Edge.CRCallStub ∨ w = Edge.CRReturnStub)) :=
  c10_update_edge_shape testCtx (NodeValue.Value 7) 1
    (NodeValue.CallReturnCombinator (some 7) none) rfl

end InterproceduralFixpoint
